import Mathlib

/-!
Verification development for the connection orchestration core of the
robomongo repository (src/robomongo/core/domain/App.cpp).

The C++ source is shallowly embedded as pure Lean functions:

* Mutable state of the `App` object (`_lastServerHandle`, `_servers`,
  `_shells`) becomes the structure `AppState`, threaded explicitly.
* `_servers` is a `std::vector<std::unique_ptr<MongoServer>>`; a null
  `unique_ptr` entry is modelled as `none`, so the vector is
  `List (Option MongoServer)`.
* Side effects (bus publishes, point-to-point sends, log intents, worker
  start-up) become an explicit `Action` trace returned by each operation.
* Mutation of a `ConnectionSettings*` argument is modelled by returning the
  settings value as it stands after the call (`settingsAfter`); `clone()`
  is a value copy, so a "clone" is simply the current settings value and
  assignments to a clone never show up in `settingsAfter`.
* The modal credential dialogs (`QInputDialog::getText`) are external
  collaborators; their outcome enters `openServer` as an input of type
  `Option String` (`none` = the user declined the dialog).
* The event bus / SSH tunnel worker contract (a response is delivered only
  for a previously issued request, and each request gets at most one
  response) is modelled by the `World` transition system: the world keeps
  the multiset of outstanding requests and a response step must consume a
  matching outstanding request.  The raw handlers (`handleEstablish`,
  `handleListen`) can also be applied to arbitrary events, which models
  delivery of an event that has no pending open.
* `QString`/`std::string` are `String` (lists of characters); `QString::arg`
  is modelled after Qt's documented place-marker semantics (`qarg_scan`
  finds the lowest-numbered `%N`/`%LN` marker, `qreplace` replaces every
  occurrence of that marker).
* The `int` server handle counter is modelled as `Nat`; the counter only
  ever increments by one per open, so machine overflow is not reachable in
  any scenario the claims quantify over.
-/

namespace Robomongo

/-- Connection type enum (`ConnectionPrimary`, `ConnectionSecondary`,
`ConnectionTest`) from the source. -/
inductive ConnectionType where
  | ConnectionPrimary
  | ConnectionSecondary
  | ConnectionTest
deriving DecidableEq

/-- Log severities used by `App.cpp` (`mongo::logger::LogSeverity`). -/
inductive LogSeverity where
  | info
  | warning
  | error
deriving DecidableEq

/-- `ConnectionFailedEvent::Reason` values used by the handlers. -/
inductive ConnectionFailedReason where
  | sshConnection
  | sshChannel
  | generic
deriving DecidableEq

/-- SSH sub-settings (`SshSettings`), external clonable data consumed by the
orchestrator.  `askedPassword` is the slot written by `setAskedPassword`. -/
structure SshSettings where
  enabled : Bool
  askPassword : Bool
  authMethod : String
  host : String
  port : Nat
  userName : String
  privateKeyFile : String
  askedPassword : String
deriving DecidableEq

/-- SSL sub-settings (`SslSettings`).  `pemPassPhrase` is the slot written by
`setPemPassPhrase`. -/
structure SslSettings where
  sslEnabled : Bool
  usePemFile : Bool
  askPassphrase : Bool
  pemKeyFile : String
  pemPassPhrase : String
deriving DecidableEq

/-- Connection settings (`ConnectionSettings`), external clonable data.
`clone()` is a value copy in this embedding. -/
structure ConnectionSettings where
  serverHost : String
  serverPort : Nat
  isReplicaSet : Bool
  connectionName : String
  replicaSetMembers : List String
  defaultDatabase : String
  sshSettings : SshSettings
  sslSettings : SslSettings
deriving DecidableEq

/-- `ConnectionSettings::getFullAddress()`: the settings' full address, used
only for log text. -/
def getFullAddress (c : ConnectionSettings) : String :=
  c.serverHost ++ ":" ++ toString c.serverPort

/-- A `MongoServer`: handle, the settings clone it owns, and its type. -/
structure MongoServer where
  handle : Nat
  settings : ConnectionSettings
  type : ConnectionType
deriving DecidableEq

/-- `ScriptInfo` value object (script text, auto-execute flag, database,
cursor position, display name, save path). -/
structure ScriptInfo where
  script : String
  execute : Bool
  dbName : String
  cursorLine : Int
  cursorColumn : Int
  shellName : String
  filePathToSave : String
deriving DecidableEq

/-- A `MongoShell`: bound secondary server plus its script info. -/
structure MongoShell where
  server : MongoServer
  scriptInfo : ScriptInfo
deriving DecidableEq

/-- Events published on the bus by `App` (`_bus->publish`). -/
inductive BusEvent where
  | connectingEvent
  | openingShellEvent (serverHandle : Nat)
  | connectionFailedEvent (serverHandle : Nat) (type : ConnectionType)
      (message : String) (reason : ConnectionFailedReason)
deriving DecidableEq

/-- Observable side effects of one orchestrator operation, in program order.
`allocHandle` records the `++_lastServerHandle` allocation, `publish` a bus
publish, the `send…` constructors the point-to-point worker sends, `logMsg`
a `LOG_MSG` intent, `runWorkerThread`/`startConnecting` the `MongoServer`
worker start-up and `tryConnect`, the rest the shell wiring. -/
inductive Action where
  | allocHandle (handle : Nat)
  | publish (event : BusEvent)
  | sendEstablishRequest (handle : Nat) (settings : ConnectionSettings)
      (type : ConnectionType)
  | sendListenRequest (handle : Nat) (type : ConnectionType)
  | logMsg (message : String) (severity : LogSeverity)
  | runWorkerThread (handle : Nat)
  | startConnecting (handle : Nat)
  | subscribeReplicaSetRefreshed (originServerHandle : Nat)
  | executeShell (handle : Nat)
deriving DecidableEq

/-- The bus publishes of an action trace. -/
def publishedEvents (acts : List Action) : List BusEvent :=
  acts.filterMap fun a =>
    match a with
    | Action.publish e => some e
    | _ => none

/-- `EstablishSshConnectionResponse` event payload.  `error = some msg`
models `isError()` with `error().errorMessage() = msg`. -/
structure EstablishSshConnectionResponse where
  serverHandle : Nat
  settings : ConnectionSettings
  connectionType : ConnectionType
  localport : Nat
  error : Option String
deriving DecidableEq

/-- `ListenSshConnectionResponse` event payload. -/
structure ListenSshConnectionResponse where
  serverHandle : Nat
  connectionType : ConnectionType
  error : Option String
deriving DecidableEq

/-- The mutable state of the `App` object: `_lastServerHandle`, `_servers`
(vector of owning pointers, possibly null) and `_shells`. -/
@[ext]
structure AppState where
  lastServerHandle : Nat
  servers : List (Option MongoServer)
  shells : List MongoShell
deriving DecidableEq

/-- Handles of the actual (non-null) servers in a server vector. -/
def serverHandlesL (l : List (Option MongoServer)) : List Nat :=
  l.filterMap fun o => o.map MongoServer.handle

/-- Handles of the actual (non-null) servers in the collection. -/
def serverHandles (s : AppState) : List Nat :=
  serverHandlesL s.servers

/-- An `EstablishSshConnectionRequest` sent to an `SshTunnelWorker`
(handle, the settings clone handed to the worker, and the type). -/
structure PendingReq where
  handle : Nat
  settings : ConnectionSettings
  type : ConnectionType
deriving DecidableEq

/- ----------------------------------------------------------------- -/
/- Collection query helper (`detail::buildCollectionQuery`).          -/
/- ----------------------------------------------------------------- -/

/-- Digit value of a character, as used by Qt's place-marker scanner. -/
def digitVal (c : Char) : Option Nat :=
  if '0' ≤ c ∧ c ≤ '9' then some (c.toNat - '0'.toNat) else none

/-- Merge a found marker number with the minimum of the remaining scan. -/
def optMin (n : Nat) : Option Nat → Option Nat
  | none => some n
  | some m => some (min n m)

/-- Scanner state for Qt's place-marker scanner, one character at a time:
`plain` (not inside a potential marker), `afterPct` (just past a `%`),
`afterPctL` (past `%L`), `afterDigit v pend` (past `%`/`%L` and one digit of
value `v`; `pend` is the consumed text, kept for verbatim copy-out when the
marker is not the one being replaced). -/
inductive MarkState where
  | plain
  | afterPct
  | afterPctL
  | afterDigit (value : Nat) (pending : List Char)
deriving DecidableEq

/-- Character-at-a-time transcription of `QString::arg`'s `findArgEscapes`:
a marker is `%`, an optional `L`, then one or two digits; the scan returns
the lowest marker number present. -/
def qarg_scanGo : MarkState → List Char → Option Nat
  | MarkState.plain, [] => none
  | MarkState.afterPct, [] => none
  | MarkState.afterPctL, [] => none
  | MarkState.afterDigit d _, [] => some d
  | MarkState.plain, c :: rest =>
    if c = '%' then qarg_scanGo MarkState.afterPct rest
    else qarg_scanGo MarkState.plain rest
  | MarkState.afterPct, c :: rest =>
    if c = 'L' then qarg_scanGo MarkState.afterPctL rest
    else
      match digitVal c with
      | some d => qarg_scanGo (MarkState.afterDigit d ['%', c]) rest
      | none =>
        if c = '%' then qarg_scanGo MarkState.afterPct rest
        else qarg_scanGo MarkState.plain rest
  | MarkState.afterPctL, c :: rest =>
    match digitVal c with
    | some d => qarg_scanGo (MarkState.afterDigit d ['%', 'L', c]) rest
    | none =>
      if c = '%' then qarg_scanGo MarkState.afterPct rest
      else qarg_scanGo MarkState.plain rest
  | MarkState.afterDigit d _, c :: rest =>
    match digitVal c with
    | some e => optMin (10 * d + e) (qarg_scanGo MarkState.plain rest)
    | none =>
      optMin d
        (if c = '%' then qarg_scanGo MarkState.afterPct rest
         else qarg_scanGo MarkState.plain rest)

/-- Lowest-numbered place marker of a string (`QString::arg`'s scan). -/
def qarg_scan (l : List Char) : Option Nat :=
  qarg_scanGo MarkState.plain l

/-- Character-at-a-time transcription of `QString::arg`'s
`replaceArgEscapes` (field width 0): every occurrence of marker number `n`
is replaced by `a`, everything else is copied verbatim; the inserted text is
not rescanned. -/
def qreplaceGo (n : Nat) (a : List Char) : MarkState → List Char → List Char
  | MarkState.plain, [] => []
  | MarkState.afterPct, [] => ['%']
  | MarkState.afterPctL, [] => ['%', 'L']
  | MarkState.afterDigit d pend, [] => if d = n then a else pend
  | MarkState.plain, c :: rest =>
    if c = '%' then qreplaceGo n a MarkState.afterPct rest
    else c :: qreplaceGo n a MarkState.plain rest
  | MarkState.afterPct, c :: rest =>
    if c = 'L' then qreplaceGo n a MarkState.afterPctL rest
    else
      match digitVal c with
      | some d => qreplaceGo n a (MarkState.afterDigit d ['%', c]) rest
      | none =>
        if c = '%' then '%' :: qreplaceGo n a MarkState.afterPct rest
        else '%' :: c :: qreplaceGo n a MarkState.plain rest
  | MarkState.afterPctL, c :: rest =>
    match digitVal c with
    | some d => qreplaceGo n a (MarkState.afterDigit d ['%', 'L', c]) rest
    | none =>
      if c = '%' then '%' :: 'L' :: qreplaceGo n a MarkState.afterPct rest
      else '%' :: 'L' :: c :: qreplaceGo n a MarkState.plain rest
  | MarkState.afterDigit d pend, c :: rest =>
    match digitVal c with
    | some e =>
      (if 10 * d + e = n then a else pend ++ [c]) ++
        qreplaceGo n a MarkState.plain rest
    | none =>
      (if d = n then a else pend) ++
        (if c = '%' then qreplaceGo n a MarkState.afterPct rest
         else c :: qreplaceGo n a MarkState.plain rest)

/-- Replace every occurrence of marker number `n` by `a`
(`QString::arg`'s replacement pass). -/
def qreplace (n : Nat) (a : List Char) (l : List Char) : List Char :=
  qreplaceGo n a MarkState.plain l

/-- `QString::arg(a)`: substitute `a` for the lowest-numbered place marker;
if the string holds no marker Qt warns and returns it unchanged. -/
def qt_arg (s a : List Char) : List Char :=
  match qarg_scan s with
  | none => s
  | some n => qreplace n a s

/-- `QString::replace(QChar('\\'), "\\\\")`: double every backslash. -/
def escapeBackslashes : List Char → List Char
  | [] => []
  | c :: rest =>
    if c = '\\' then '\\' :: '\\' :: escapeBackslashes rest
    else c :: escapeBackslashes rest

/-- The template used by `detail::buildCollectionQuery`. -/
def queryPattern : List Char := "db.getCollection('%1').%2".data

/-- `detail::buildCollectionQuery(collectionName, postfix)`: escape
backslashes in the collection name, then substitute name and operation into
the template with `QString::arg`. -/
def buildCollectionQuery (collectionName : String) (postfixOp : String) : String :=
  String.mk (qt_arg (qt_arg queryPattern (escapeBackslashes collectionName.data))
    postfixOp.data)

/-- True when a character list contains no percent character (hence cannot
interact with Qt place markers). -/
def pfreeL (l : List Char) : Bool :=
  l.all fun c => c != '%'

/- ----------------------------------------------------------------- -/
/- Orchestrator operations.                                           -/
/- ----------------------------------------------------------------- -/

/-- Condition of `App::openServerInternal` for skipping the tunnel:
`type == ConnectionSecondary || !ssh->enabled() || isReplicaSet()`. -/
def noTunnelCond (c : ConnectionSettings) (t : ConnectionType) : Bool :=
  decide (t = ConnectionType.ConnectionSecondary) || !c.sshSettings.enabled
    || c.isReplicaSet

/-- Condition of `App::continueOpenServer` for rewriting host/port to the
local tunnel endpoint. -/
def tunnelRewriteCond (c : ConnectionSettings) (t : ConnectionType) : Bool :=
  (decide (t = ConnectionType.ConnectionPrimary)
      || decide (t = ConnectionType.ConnectionTest))
    && !c.isReplicaSet && c.sshSettings.enabled

/-- The human-readable target label computed by `continueOpenServer`. -/
def connectingLabel (c : ConnectionSettings) : String :=
  if c.isReplicaSet then
    let base := c.connectionName ++ " [Replica Set]"
    match c.replicaSetMembers with
    | m :: _ => base ++ m
    | [] => base
  else getFullAddress c

/-- Result of `App::continueOpenServer`: the new server, the emitted
actions, and the argument settings as they stand after the call. -/
structure ContinueResult where
  server : MongoServer
  actions : List Action
  settingsAfter : ConnectionSettings
deriving DecidableEq

/-- `App::continueOpenServer(serverHandle, connSettings, type, localport)`:
clone the settings, rewrite host/port on the clone when a tunnel is in use,
build the server, start its worker, log, and start connecting.  The caller's
settings are only read. -/
def continueOpenServer (serverHandle : Nat) (connSettings : ConnectionSettings)
    (t : ConnectionType) (localport : Nat) : ContinueResult :=
  let connSettingsClone :=
    if tunnelRewriteCond connSettings t then
      { connSettings with serverHost := "127.0.0.1", serverPort := localport }
    else connSettings
  let server : MongoServer := ⟨serverHandle, connSettingsClone, t⟩
  { server := server
    actions :=
      [Action.runWorkerThread serverHandle,
       Action.logMsg ("Connecting to " ++ connectingLabel connSettings ++ "...")
         LogSeverity.info,
       Action.startConnecting serverHandle]
    settingsAfter := connSettings }

/-- Result of `App::openServerInternal`. -/
structure OpenInternalResult where
  state : AppState
  server : Option MongoServer
  actions : List Action
  request : Option PendingReq
  settingsAfter : ConnectionSettings
deriving DecidableEq

/-- `App::openServerInternal(connSettings, type)`: allocate the next handle,
publish `ConnectingEvent` for primaries, then either open synchronously
(no-tunnel condition) or dispatch an establish-SSH request and return no
server. -/
def openServerInternal (s : AppState) (connSettings : ConnectionSettings)
    (t : ConnectionType) : OpenInternalResult :=
  let h := s.lastServerHandle + 1
  let s1 := { s with lastServerHandle := h }
  let connectingActs :=
    if t = ConnectionType.ConnectionPrimary then
      [Action.publish BusEvent.connectingEvent]
    else []
  if noTunnelCond connSettings t then
    let r := continueOpenServer h connSettings t 0
    { state := s1
      server := some r.server
      actions := Action.allocHandle h :: (connectingActs ++ r.actions)
      request := none
      settingsAfter := r.settingsAfter }
  else
    let settingsCopy := connSettings
    { state := s1
      server := none
      actions :=
        Action.allocHandle h ::
          (connectingActs ++
            [Action.logMsg
              ("Creating SSH tunnel to " ++ connSettings.sshSettings.host ++ ":"
                ++ toString connSettings.sshSettings.port ++ "...")
              LogSeverity.info,
             Action.sendEstablishRequest h settingsCopy t])
      request := some ⟨h, settingsCopy, t⟩
      settingsAfter := connSettings }

/-- Result of `App::openServer`.  `assigned` is the handle allocated during
the call (`none` when a declined credential prompt aborts the call). -/
structure OpenServerResult where
  ok : Bool
  state : AppState
  settingsAfter : ConnectionSettings
  actions : List Action
  request : Option PendingReq
  assigned : Option Nat
deriving DecidableEq

/-- Whether `App::openServer` shows the SSH password/passphrase prompt. -/
def sshPromptRequired (c : ConnectionSettings) (t : ConnectionType) : Bool :=
  !c.isReplicaSet && c.sshSettings.enabled && c.sshSettings.askPassword
    && (decide (t = ConnectionType.ConnectionPrimary)
        || decide (t = ConnectionType.ConnectionTest))

/-- Whether `App::openServer` shows the SSL PEM passphrase prompt. -/
def sslPromptRequired (c : ConnectionSettings) (t : ConnectionType) : Bool :=
  c.sslSettings.sslEnabled && c.sslSettings.usePemFile
    && c.sslSettings.askPassphrase
    && (decide (t = ConnectionType.ConnectionPrimary)
        || decide (t = ConnectionType.ConnectionTest))

/-- Tail of `App::openServer` after both prompts: run `openServerInternal`
and push its result (possibly a null pointer) onto `_servers`. -/
def openServerFinish (s : AppState) (c : ConnectionSettings)
    (t : ConnectionType) : OpenServerResult :=
  let r := openServerInternal s c t
  { ok := true
    state := { r.state with servers := r.state.servers ++ [r.server] }
    settingsAfter := r.settingsAfter
    actions := r.actions
    request := r.request
    assigned := some r.state.lastServerHandle }

/-- Middle of `App::openServer`: the SSL PEM passphrase prompt
(`askSslPassphrasePromptDialog`).  On decline return failure before any
mutation; on accept store the passphrase into the caller's settings. -/
def openServerAfterSsh (s : AppState) (c : ConnectionSettings)
    (t : ConnectionType) (sslPromptInput : Option String) : OpenServerResult :=
  if sslPromptRequired c t then
    match sslPromptInput with
    | none => ⟨false, s, c, [], none, none⟩
    | some ph =>
      openServerFinish s
        { c with sslSettings := { c.sslSettings with pemPassPhrase := ph } } t
  else openServerFinish s c t

/-- `App::openServer(connection, type)`.  The prompt inputs model the modal
dialogs: `none` means the user declined.  On an accepted SSH prompt the
password is stored into the caller's settings (`setAskedPassword`). -/
def openServer (s : AppState) (c : ConnectionSettings) (t : ConnectionType)
    (sshPromptInput sslPromptInput : Option String) : OpenServerResult :=
  if sshPromptRequired c t then
    match sshPromptInput with
    | none => ⟨false, s, c, [], none, none⟩
    | some pw =>
      openServerAfterSsh s
        { c with sshSettings := { c.sshSettings with askedPassword := pw } } t
        sslPromptInput
  else openServerAfterSsh s c t sslPromptInput

/-- `App::closeServer(server)`: erase the matching entry (matched here by
its unique handle, standing in for pointer identity) from `_servers`;
a no-op when no entry matches. -/
def closeServer (s : AppState) (serverHandle : Nat) : AppState :=
  { s with
      servers := s.servers.filter fun o =>
        match o with
        | some srv => srv.handle != serverHandle
        | none => true }

/-- Result of the `App::openShell` primitive. -/
structure OpenShellResult where
  state : AppState
  actions : List Action
  request : Option PendingReq
  settingsAfter : ConnectionSettings
deriving DecidableEq

/-- The `App::openShell(server, connection, scriptInfo)` primitive: open a
fresh `ConnectionSecondary` server, abort (after the open already ran) when
the new server or the originating `server` pointer is null, otherwise
register server and shell, subscribe, publish `OpeningShellEvent`, and
execute the shell.  `originServer` is the originating server pointer,
modelled by its handle (`none` = null pointer). -/
def openShell (s : AppState) (originServer : Option Nat)
    (connection : ConnectionSettings) (scriptInfo : ScriptInfo) :
    OpenShellResult :=
  let r := openServerInternal s connection ConnectionType.ConnectionSecondary
  match r.server, originServer with
  | none, _ => ⟨r.state, r.actions, r.request, r.settingsAfter⟩
  | some _, none => ⟨r.state, r.actions, r.request, r.settingsAfter⟩
  | some serverClone, some origin =>
    let shell : MongoShell := ⟨serverClone, scriptInfo⟩
    { state :=
        { r.state with
            servers := r.state.servers ++ [some serverClone]
            shells := r.state.shells ++ [shell] }
      actions :=
        r.actions ++
          [Action.subscribeReplicaSetRefreshed origin,
           Action.publish (BusEvent.openingShellEvent serverClone.handle),
           Action.executeShell serverClone.handle]
      request := r.request
      settingsAfter := r.settingsAfter }

/-- `App::closeShell(shell)`: no-op when the shell is not tracked; otherwise
close its bound server first, then erase the shell entry. -/
def closeShell (s : AppState) (shell : MongoShell) : AppState :=
  if shell ∈ s.shells then
    let s1 := closeServer s shell.server.handle
    { s1 with shells := s1.shells.erase shell }
  else s

/-- Result of an event handler: the new app state and the emitted actions. -/
structure HandlerResult where
  state : AppState
  actions : List Action
deriving DecidableEq

/-- `App::handle(EstablishSshConnectionResponse*)`: on error publish
`ConnectionFailed(SshConnection)`; on success log, continue the open with
the event's handle/settings/type/localport, push the new server, and send a
listen request. -/
def handleEstablish (s : AppState) (e : EstablishSshConnectionResponse) :
    HandlerResult :=
  match e.error with
  | some msg =>
    { state := s
      actions :=
        [Action.publish (BusEvent.connectionFailedEvent e.serverHandle
          e.connectionType msg ConnectionFailedReason.sshConnection)] }
  | none =>
    let r := continueOpenServer e.serverHandle e.settings e.connectionType
      e.localport
    { state := { s with servers := s.servers ++ [some r.server] }
      actions :=
        Action.logMsg "SSH tunnel created successfully" LogSeverity.info ::
          (r.actions ++
            [Action.sendListenRequest e.serverHandle e.connectionType]) }

/-- `App::handle(ListenSshConnectionResponse*)`: on error publish
`ConnectionFailed(SshChannel)`; on success only log "SSH tunnel closed."
(at error severity, as in the source). -/
def handleListen (s : AppState) (e : ListenSshConnectionResponse) :
    HandlerResult :=
  match e.error with
  | some msg =>
    { state := s
      actions :=
        [Action.publish (BusEvent.connectionFailedEvent e.serverHandle
          e.connectionType msg ConnectionFailedReason.sshChannel)] }
  | none =>
    { state := s
      actions := [Action.logMsg "SSH tunnel closed." LogSeverity.error] }

/- ----------------------------------------------------------------- -/
/- The closed system: app plus outstanding worker requests.           -/
/- ----------------------------------------------------------------- -/

/-- Outcome of an establish-SSH request, as reported by the worker. -/
inductive EstablishOutcome where
  | success (localport : Nat)
  | failure (msg : String)
deriving DecidableEq

/-- Outcome of a listen-SSH request, as reported by the worker. -/
inductive ListenOutcome where
  | success
  | failure (msg : String)
deriving DecidableEq

/-- The response event the worker sends back for an outstanding establish
request: it echoes the request's handle, settings and type. -/
def eventOfPending (p : PendingReq) : EstablishOutcome →
    EstablishSshConnectionResponse
  | EstablishOutcome.success lp => ⟨p.handle, p.settings, p.type, lp, none⟩
  | EstablishOutcome.failure m => ⟨p.handle, p.settings, p.type, 0, some m⟩

/-- The response event the worker sends back for an outstanding listen
request. -/
def eventOfListen (q : Nat × ConnectionType) : ListenOutcome →
    ListenSshConnectionResponse
  | ListenOutcome.success => ⟨q.1, q.2, none⟩
  | ListenOutcome.failure m => ⟨q.1, q.2, some m⟩

/-- The orchestrator together with the outstanding requests held by the
tunnel workers (the event-bus contract state). -/
@[ext]
structure World where
  app : AppState
  pendingEstablish : List PendingReq
  pendingListen : List (Nat × ConnectionType)
deriving DecidableEq

/-- Handles of outstanding establish requests. -/
def pendingHandles (w : World) : List Nat :=
  w.pendingEstablish.map PendingReq.handle

/-- The freshly constructed `App` (counter 0, empty collections, no
outstanding requests). -/
def initialWorld : World :=
  { app := { lastServerHandle := 0, servers := [], shells := [] }
    pendingEstablish := []
    pendingListen := [] }

/-- A world step: an `openServer` call. -/
def stepOpenServer (w : World) (c : ConnectionSettings) (t : ConnectionType)
    (sshPromptInput sslPromptInput : Option String) : World :=
  let r := openServer w.app c t sshPromptInput sslPromptInput
  { app := r.state
    pendingEstablish := w.pendingEstablish ++ r.request.toList
    pendingListen := w.pendingListen }

/-- A world step: an `openShell` primitive call. -/
def stepOpenShell (w : World) (originServer : Option Nat)
    (c : ConnectionSettings) (info : ScriptInfo) : World :=
  let r := openShell w.app originServer c info
  { app := r.state
    pendingEstablish := w.pendingEstablish ++ r.request.toList
    pendingListen := w.pendingListen }

/-- A world step: the worker answers the outstanding establish request `p`
(consuming it); on success the handler sends a listen request, which becomes
outstanding. -/
def stepEstablish (w : World) (l1 : List PendingReq) (p : PendingReq)
    (l2 : List PendingReq) (res : EstablishOutcome) : World :=
  let r := handleEstablish w.app (eventOfPending p res)
  { app := r.state
    pendingEstablish := l1 ++ l2
    pendingListen :=
      w.pendingListen ++
        (match res with
         | EstablishOutcome.success _ => [(p.handle, p.type)]
         | EstablishOutcome.failure _ => []) }

/-- A world step: the worker answers the outstanding listen request `q`. -/
def stepListen (w : World) (l1 : List (Nat × ConnectionType))
    (q : Nat × ConnectionType) (l2 : List (Nat × ConnectionType))
    (res : ListenOutcome) : World :=
  let r := handleListen w.app (eventOfListen q res)
  { app := r.state
    pendingEstablish := w.pendingEstablish
    pendingListen := l1 ++ l2 }

/-- A world step: `closeServer`. -/
def stepCloseServer (w : World) (serverHandle : Nat) : World :=
  { w with app := closeServer w.app serverHandle }

/-- A world step: `closeShell`. -/
def stepCloseShell (w : World) (shell : MongoShell) : World :=
  { w with app := closeShell w.app shell }

/-- Worlds reachable from `w0` by orchestrator calls and contract-respecting
event deliveries: a response step must consume a matching outstanding
request (`w.pendingEstablish = l1 ++ p :: l2`), which models the bus/worker
guarantee that every response answers exactly one issued request. -/
inductive ReachableFrom (w0 : World) : World → Prop where
  | refl : ReachableFrom w0 w0
  | stepOpen : ∀ {w} (_ : ReachableFrom w0 w) (c : ConnectionSettings)
      (t : ConnectionType) (p q : Option String),
      ReachableFrom w0 (stepOpenServer w c t p q)
  | stepShell : ∀ {w} (_ : ReachableFrom w0 w) (originServer : Option Nat)
      (c : ConnectionSettings) (info : ScriptInfo),
      ReachableFrom w0 (stepOpenShell w originServer c info)
  | stepEst : ∀ {w} (_ : ReachableFrom w0 w) (l1 : List PendingReq)
      (p : PendingReq) (l2 : List PendingReq) (res : EstablishOutcome)
      (_ : w.pendingEstablish = l1 ++ p :: l2),
      ReachableFrom w0 (stepEstablish w l1 p l2 res)
  | stepLis : ∀ {w} (_ : ReachableFrom w0 w)
      (l1 : List (Nat × ConnectionType)) (q : Nat × ConnectionType)
      (l2 : List (Nat × ConnectionType)) (res : ListenOutcome)
      (_ : w.pendingListen = l1 ++ q :: l2),
      ReachableFrom w0 (stepListen w l1 q l2 res)
  | stepCloseSrv : ∀ {w} (_ : ReachableFrom w0 w) (serverHandle : Nat),
      ReachableFrom w0 (stepCloseServer w serverHandle)
  | stepCloseSh : ∀ {w} (_ : ReachableFrom w0 w) (shell : MongoShell),
      ReachableFrom w0 (stepCloseShell w shell)

/-- Worlds reachable from the freshly constructed `App`. -/
def Reachable (w : World) : Prop :=
  ReachableFrom initialWorld w

/- ----------------------------------------------------------------- -/
/- Traces of consecutive openServer calls (for handle monotonicity).  -/
/- ----------------------------------------------------------------- -/

/-- Inputs of one `openServer` call. -/
structure OpenCall where
  conn : ConnectionSettings
  type : ConnectionType
  sshPromptInput : Option String
  sslPromptInput : Option String

/-- Run consecutive `openServer` calls; record each call's assigned handle
(`none` when the call aborted at a prompt). -/
def runOpens (s : AppState) : List OpenCall → List (Option Nat)
  | [] => []
  | call :: rest =>
    let r := openServer s call.conn call.type call.sshPromptInput
      call.sslPromptInput
    r.assigned :: runOpens r.state rest

/-- The handles actually assigned along a trace of `openServer` calls. -/
def assignedHandles (s : AppState) (calls : List OpenCall) : List Nat :=
  (runOpens s calls).filterMap id

/-- The caller's settings after `openServer`'s credential prompts: equal to
the input settings except that an accepted SSH prompt stores the password
(`setAskedPassword`) and an accepted SSL prompt stores the PEM passphrase
(`setPemPassPhrase`).  Used to characterise `openServer`'s only mutations
of the caller's settings object. -/
def credUpdate (c : ConnectionSettings) (opw oph : Option String) :
    ConnectionSettings :=
  { c with
      sshSettings :=
        { c.sshSettings with
            askedPassword := opw.getD c.sshSettings.askedPassword }
      sslSettings :=
        { c.sslSettings with
            pemPassPhrase := oph.getD c.sslSettings.pemPassPhrase } }

/- ----------------------------------------------------------------- -/
/- Concrete sample data, used by witnesses and counterexamples.       -/
/- ----------------------------------------------------------------- -/

/-- SSH settings with the tunnel disabled. -/
def sampleSshOff : SshSettings :=
  { enabled := false, askPassword := false, authMethod := "password"
    host := "", port := 22, userName := "", privateKeyFile := ""
    askedPassword := "" }

/-- SSH settings with the tunnel enabled and no password prompt. -/
def sampleSshOn : SshSettings :=
  { sampleSshOff with enabled := true, host := "ssh.example.com"
                      userName := "user" }

/-- SSH settings with the tunnel enabled and `askPassword` set. -/
def sampleSshAsk : SshSettings :=
  { sampleSshOn with askPassword := true }

/-- SSL settings with everything disabled. -/
def sampleSslOff : SslSettings :=
  { sslEnabled := false, usePemFile := false, askPassphrase := false
    pemKeyFile := "", pemPassPhrase := "" }

/-- A plain direct connection (no replica set, no SSH, no SSL). -/
def sampleSettingsPlain : ConnectionSettings :=
  { serverHost := "localhost", serverPort := 27017, isReplicaSet := false
    connectionName := "conn", replicaSetMembers := [], defaultDatabase := ""
    sshSettings := sampleSshOff, sslSettings := sampleSslOff }

/-- A tunnel connection: not a replica set, SSH enabled, no prompts. -/
def sampleSettingsTunnel : ConnectionSettings :=
  { sampleSettingsPlain with sshSettings := sampleSshOn }

/-- A tunnel connection whose SSH settings require the password prompt. -/
def sampleSettingsAsk : ConnectionSettings :=
  { sampleSettingsPlain with sshSettings := sampleSshAsk }

/-- The freshly constructed app state. -/
def initialApp : AppState :=
  { lastServerHandle := 0, servers := [], shells := [] }

/-- A sample script info value. -/
def sampleScriptInfo : ScriptInfo :=
  { script := "db.test.find()", execute := true, dbName := "db"
    cursorLine := 0, cursorColumn := -2, shellName := "db"
    filePathToSave := "" }

/-- A sample trace of three `openServer` calls: a plain synchronous open, a
declined credential prompt, and a tunnel open. -/
def sampleCalls : List OpenCall :=
  [⟨sampleSettingsPlain, ConnectionType.ConnectionPrimary, none, none⟩,
   ⟨sampleSettingsAsk, ConnectionType.ConnectionPrimary, none, none⟩,
   ⟨sampleSettingsTunnel, ConnectionType.ConnectionTest, none, none⟩]

/-- A successful establish response for handle 7 (used by the handshake
ordering witness). -/
def sampleEstablishSuccess7 : EstablishSshConnectionResponse :=
  ⟨7, sampleSettingsTunnel, ConnectionType.ConnectionPrimary, 300, none⟩

/-- The app after processing the successful establish response for
handle 7: one server with handle 7 is registered. -/
def appAfterSuccess7 : AppState :=
  (handleEstablish initialApp sampleEstablishSuccess7).state

/-- A failing listen response for handle 7. -/
def sampleListenError7 : ListenSshConnectionResponse :=
  ⟨7, ConnectionType.ConnectionPrimary, some "channel error"⟩

/- ----------------------------------------------------------------- -/
/- Invariants of the closed system.                                   -/
/- ----------------------------------------------------------------- -/

/-- The inductive invariant of the closed system: server handles are
duplicate-free and bounded by the counter, and outstanding establish
requests carry duplicate-free handles that are bounded by the counter and
not yet registered as servers. -/
def WorldInv (w : World) : Prop :=
  (serverHandles w.app).Nodup
  ∧ (pendingHandles w).Nodup
  ∧ (∀ h ∈ serverHandles w.app, h ≤ w.app.lastServerHandle)
  ∧ (∀ h ∈ pendingHandles w,
      h ≤ w.app.lastServerHandle ∧ h ∉ serverHandles w.app)

/-- A handle that has been consumed and abandoned: it is at most the
counter (so it will never be allocated again), it belongs to no outstanding
establish request, and no server carries it.  Such a handle stays dead along
every further step. -/
def DeadHandle (h : Nat) (w : World) : Prop :=
  h ≤ w.app.lastServerHandle ∧ h ∉ pendingHandles w
    ∧ h ∉ serverHandles w.app

/- ----------------------------------------------------------------- -/
/- Lemmas about the collection query helper.                          -/
/- ----------------------------------------------------------------- -/

theorem pfreeL_cons {c : Char} {l : List Char} (h : pfreeL (c :: l) = true) :
    c ≠ '%' ∧ pfreeL l = true := by
  simpa [pfreeL, Bool.and_eq_true, bne_iff_ne] using h

theorem qarg_scanGo_append_pfree (xs : List Char) (h : pfreeL xs = true)
    (ys : List Char) :
    qarg_scanGo MarkState.plain (xs ++ ys) = qarg_scanGo MarkState.plain ys := by
  induction xs with
  | nil => rfl
  | cons c xs ih =>
    obtain ⟨hc, hxs⟩ := pfreeL_cons h
    rw [List.cons_append]
    simp only [qarg_scanGo]
    rw [if_neg hc]
    exact ih hxs

theorem qreplaceGo_append_pfree (n : Nat) (a : List Char) (xs : List Char)
    (h : pfreeL xs = true) (ys : List Char) :
    qreplaceGo n a MarkState.plain (xs ++ ys) =
      xs ++ qreplaceGo n a MarkState.plain ys := by
  induction xs with
  | nil => rfl
  | cons c xs ih =>
    obtain ⟨hc, hxs⟩ := pfreeL_cons h
    rw [List.cons_append]
    simp only [qreplaceGo]
    rw [if_neg hc, ih hxs]
    rfl

theorem pfreeL_escapeBackslashes (l : List Char) (h : pfreeL l = true) :
    pfreeL (escapeBackslashes l) = true := by
  induction l with
  | nil => rfl
  | cons c l ih =>
    obtain ⟨hc, hl⟩ := pfreeL_cons h
    simp only [escapeBackslashes]
    by_cases hb : c = '\\'
    · rw [if_pos hb]
      simpa [pfreeL, Bool.and_eq_true, bne_iff_ne] using ih hl
    · rw [if_neg hb]
      simp only [pfreeL, List.all_cons, Bool.and_eq_true, bne_iff_ne]
      exact ⟨hc, by simpa [pfreeL] using ih hl⟩

theorem qarg_scan_queryPattern : qarg_scan queryPattern = some 1 := rfl

theorem qreplace_one_queryPattern (a : List Char) :
    qreplace 1 a queryPattern =
      "db.getCollection('".data ++ (a ++ "').%2".data) := rfl

theorem qreplace_two_tail (a : List Char) :
    qreplaceGo 2 a MarkState.plain "').%2".data = "').".data ++ a := rfl

/-- Claim C7, counterexample: the claim quantifies over every collection
name, but a name containing a Qt place marker is substituted by
`QString::arg` in a way that lets the second `arg` call replace the marker
inside the name: for name `%2` the generated script is
`db.getCollection('find({})').find({})`, not
`db.getCollection('%2').find({})`. -/
theorem claim_c7_counterexample :
    buildCollectionQuery "%2" "find(\x7b\x7d)" ≠
        "db.getCollection('%2').find(\x7b\x7d)" ∧
      buildCollectionQuery "%2" "find(\x7b\x7d)" =
        "db.getCollection('find(\x7b\x7d)').find(\x7b\x7d)" := by
  constructor
  · decide
  · decide

/-- Claim C7, amended: for every collection name that contains no percent
character (so that it cannot interact with Qt's place markers) and every
operation string, the helper doubles each backslash of the name and the
generated script is exactly `db.getCollection('<escaped name>').<operation>`;
in particular the `a\b` / `find({})` instance of the claim holds (see the
witness). -/
theorem claim_c7_escape (name opStr : String)
    (h : pfreeL name.data = true) :
    buildCollectionQuery name opStr =
      String.mk ("db.getCollection('".data ++
        (escapeBackslashes name.data ++ ("').".data ++ opStr.data))) := by
  have hesc := pfreeL_escapeBackslashes name.data h
  unfold buildCollectionQuery
  have h1 : qt_arg queryPattern (escapeBackslashes name.data) =
      "db.getCollection('".data ++
        (escapeBackslashes name.data ++ "').%2".data) := by
    unfold qt_arg
    rw [qarg_scan_queryPattern]
    exact qreplace_one_queryPattern _
  rw [h1]
  have h2 : qarg_scan ("db.getCollection('".data ++
      (escapeBackslashes name.data ++ "').%2".data)) = some 2 := by
    unfold qarg_scan
    rw [qarg_scanGo_append_pfree _ (by decide) _,
      qarg_scanGo_append_pfree _ hesc _]
    rfl
  unfold qt_arg
  rw [h2]
  show String.mk (qreplaceGo 2 opStr.data MarkState.plain
    ("db.getCollection('".data ++
      (escapeBackslashes name.data ++ "').%2".data))) = _
  rw [qreplaceGo_append_pfree _ _ _ (by decide) _,
    qreplaceGo_append_pfree _ _ _ hesc _, qreplace_two_tail]

/-- Claim C7, witness: the concrete instance named by the claim, obtained
from the amended theorem at name `a\b` and operation `find({})`. -/
theorem claim_c7_witness :
    pfreeL "a\\b".data = true ∧
      buildCollectionQuery "a\\b" "find(\x7b\x7d)" =
        "db.getCollection('a\\\\b').find(\x7b\x7d)" :=
  ⟨by decide, (claim_c7_escape "a\\b" "find(\x7b\x7d)" (by decide)).trans
    (by decide)⟩

/- ----------------------------------------------------------------- -/
/- Shape lemmas for the open operations.                              -/
/- ----------------------------------------------------------------- -/

theorem continueOpenServer_server_handle (h : Nat) (c : ConnectionSettings)
    (t : ConnectionType) (lp : Nat) :
    (continueOpenServer h c t lp).server.handle = h := rfl

theorem continueOpenServer_settingsAfter (h : Nat) (c : ConnectionSettings)
    (t : ConnectionType) (lp : Nat) :
    (continueOpenServer h c t lp).settingsAfter = c := rfl

theorem openServerInternal_state (s : AppState) (c : ConnectionSettings)
    (t : ConnectionType) :
    (openServerInternal s c t).state =
      { s with lastServerHandle := s.lastServerHandle + 1 } := by
  simp only [openServerInternal]
  split <;> rfl

theorem openServerInternal_settingsAfter (s : AppState)
    (c : ConnectionSettings) (t : ConnectionType) :
    (openServerInternal s c t).settingsAfter = c := by
  simp only [openServerInternal]
  split <;> rfl

theorem openServerInternal_actions_head (s : AppState)
    (c : ConnectionSettings) (t : ConnectionType) :
    (openServerInternal s c t).actions.head? =
      some (Action.allocHandle (s.lastServerHandle + 1)) := by
  simp only [openServerInternal]
  split <;> rfl

theorem openServerInternal_cases (s : AppState) (c : ConnectionSettings)
    (t : ConnectionType) :
    ((openServerInternal s c t).request = none ∧
        ∃ srv, (openServerInternal s c t).server = some srv ∧
          srv.handle = s.lastServerHandle + 1) ∨
      ((openServerInternal s c t).server = none ∧
        (openServerInternal s c t).request =
          some ⟨s.lastServerHandle + 1, c, t⟩) := by
  simp only [openServerInternal]
  split
  · exact Or.inl ⟨rfl, _, rfl, rfl⟩
  · exact Or.inr ⟨rfl, rfl⟩

theorem openServerFinish_ok (s : AppState) (c : ConnectionSettings)
    (t : ConnectionType) : (openServerFinish s c t).ok = true := rfl

theorem openServerFinish_state (s : AppState) (c : ConnectionSettings)
    (t : ConnectionType) :
    (openServerFinish s c t).state =
      { lastServerHandle := s.lastServerHandle + 1
        servers := s.servers ++ [(openServerInternal s c t).server]
        shells := s.shells } := by
  simp [openServerFinish, openServerInternal_state]

theorem openServerFinish_assigned (s : AppState) (c : ConnectionSettings)
    (t : ConnectionType) :
    (openServerFinish s c t).assigned = some (s.lastServerHandle + 1) := by
  simp [openServerFinish, openServerInternal_state]

theorem openServerFinish_request (s : AppState) (c : ConnectionSettings)
    (t : ConnectionType) :
    (openServerFinish s c t).request = (openServerInternal s c t).request :=
  rfl

theorem openServerFinish_actions (s : AppState) (c : ConnectionSettings)
    (t : ConnectionType) :
    (openServerFinish s c t).actions = (openServerInternal s c t).actions :=
  rfl

theorem sslPromptRequired_sshUpdate (c : ConnectionSettings)
    (x : SshSettings) (t : ConnectionType) :
    sslPromptRequired { c with sshSettings := x } t = sslPromptRequired c t :=
  rfl

theorem openServer_cases (s : AppState) (c : ConnectionSettings)
    (t : ConnectionType) (p q : Option String) :
    (∃ opw oph, openServer s c t p q =
        ⟨false, s, credUpdate c opw oph, [], none, none⟩) ∨
      ∃ opw oph, openServer s c t p q =
        openServerFinish s (credUpdate c opw oph) t := by
  by_cases h1 : sshPromptRequired c t = true
  · cases p with
    | none =>
      exact Or.inl ⟨none, none, by simp [openServer, h1, credUpdate]⟩
    | some pw =>
      by_cases h2 : sslPromptRequired c t = true
      · cases q with
        | none =>
          refine Or.inl ⟨some pw, none, ?_⟩
          simp [openServer, openServerAfterSsh, h1,
            sslPromptRequired_sshUpdate, h2, credUpdate]
        | some ph =>
          refine Or.inr ⟨some pw, some ph, ?_⟩
          simp [openServer, openServerAfterSsh, h1,
            sslPromptRequired_sshUpdate, h2, credUpdate]
      · refine Or.inr ⟨some pw, none, ?_⟩
        simp [openServer, openServerAfterSsh, h1,
          sslPromptRequired_sshUpdate, h2, credUpdate]
  · by_cases h2 : sslPromptRequired c t = true
    · cases q with
      | none =>
        exact Or.inl ⟨none, none,
          by simp [openServer, openServerAfterSsh, h1, h2, credUpdate]⟩
      | some ph =>
        refine Or.inr ⟨none, some ph, ?_⟩
        simp [openServer, openServerAfterSsh, h1, h2, credUpdate]
    · exact Or.inr ⟨none, none,
        by simp [openServer, openServerAfterSsh, h1, h2, credUpdate]⟩

theorem openServerFinish_settingsAfter (s : AppState)
    (c : ConnectionSettings) (t : ConnectionType) :
    (openServerFinish s c t).settingsAfter = c :=
  openServerInternal_settingsAfter s c t

/- ----------------------------------------------------------------- -/
/- Claims C3, C1, C5, C6, C10.                                        -/
/- ----------------------------------------------------------------- -/

/-- Claim C3: `openServerInternal` takes the tunnel path (dispatches an
establish-SSH request and creates no server synchronously) exactly when the
type is Primary or Test, the settings are not a replica set, and SSH is
enabled; in every other combination it takes the synchronous path (a server
is created and no request is dispatched). -/
theorem claim_c3_tunnel_decision (s : AppState) (c : ConnectionSettings)
    (t : ConnectionType) :
    (((openServerInternal s c t).request.isSome = true ∧
        (openServerInternal s c t).server = none) ↔
      ((t = ConnectionType.ConnectionPrimary ∨
          t = ConnectionType.ConnectionTest) ∧
        c.isReplicaSet = false ∧ c.sshSettings.enabled = true))
    ∧ (((openServerInternal s c t).server.isSome = true ∧
          (openServerInternal s c t).request = none) ↔
        ¬((t = ConnectionType.ConnectionPrimary ∨
            t = ConnectionType.ConnectionTest) ∧
          c.isReplicaSet = false ∧ c.sshSettings.enabled = true)) := by
  cases t <;> cases hr : c.isReplicaSet <;> cases he : c.sshSettings.enabled
    <;> simp [openServerInternal, noTunnelCond, hr, he]

/-- Claim C1 (code-bug evidence): on the tunnel path `openServer` returns
true, but `_servers.push_back(move(openServerInternal(...)))` pushes the
null pointer returned by `openServerInternal`, so the server collection
grows to `[none]` immediately — its size is not unchanged as the claim
states — while no actual `MongoServer` exists yet (`serverHandles` is
empty); the server for handle 1 appears only once the matching establish
success response is handled. -/
theorem claim_c1_premature_push :
    (openServer initialApp sampleSettingsTunnel
        ConnectionType.ConnectionPrimary none none).ok = true
    ∧ (openServer initialApp sampleSettingsTunnel
        ConnectionType.ConnectionPrimary none none).state.servers = [none]
    ∧ serverHandles (openServer initialApp sampleSettingsTunnel
        ConnectionType.ConnectionPrimary none none).state = []
    ∧ serverHandles
        (handleEstablish
          (openServer initialApp sampleSettingsTunnel
            ConnectionType.ConnectionPrimary none none).state
          (eventOfPending
            ⟨1, sampleSettingsTunnel, ConnectionType.ConnectionPrimary⟩
            (EstablishOutcome.success 2000))).state = [1] :=
  ⟨rfl, rfl, rfl, rfl⟩

/-- Claim C5: when a required credential prompt is declined (the SSH
password/passphrase prompt, or the SSL PEM passphrase prompt reached after
the SSH step), `openServer` returns false, emits no action, dispatches no
request, and leaves the orchestrator state untouched. -/
theorem claim_c5_credential_decline (s : AppState) (c : ConnectionSettings)
    (t : ConnectionType) (p q : Option String)
    (h : (sshPromptRequired c t = true ∧ p = none) ∨
      ((sshPromptRequired c t = true → p ≠ none) ∧
        sslPromptRequired c t = true ∧ q = none)) :
    (openServer s c t p q).ok = false ∧ (openServer s c t p q).state = s ∧
      (openServer s c t p q).actions = [] ∧
      (openServer s c t p q).request = none ∧
      (openServer s c t p q).assigned = none := by
  rcases h with ⟨h1, hp⟩ | ⟨himp, h2, hq⟩
  · subst hp
    simp [openServer, h1]
  · subst hq
    by_cases h1 : sshPromptRequired c t = true
    · cases p with
      | none => exact absurd rfl (himp h1)
      | some pw =>
        simp [openServer, openServerAfterSsh, h1,
          sslPromptRequired_sshUpdate, h2]
    · simp [openServer, openServerAfterSsh, h1, h2]

/-- Claim C5, witness: declining the SSH password prompt on a
Primary tunnel connection with `askPassword` enabled aborts the call with
no state change, no actions, and no request. -/
theorem claim_c5_witness :
    (openServer initialApp sampleSettingsAsk
        ConnectionType.ConnectionPrimary none none).ok = false
    ∧ (openServer initialApp sampleSettingsAsk
        ConnectionType.ConnectionPrimary none none).state = initialApp
    ∧ (openServer initialApp sampleSettingsAsk
        ConnectionType.ConnectionPrimary none none).actions = []
    ∧ (openServer initialApp sampleSettingsAsk
        ConnectionType.ConnectionPrimary none none).request = none
    ∧ (openServer initialApp sampleSettingsAsk
        ConnectionType.ConnectionPrimary none none).assigned = none :=
  claim_c5_credential_decline initialApp sampleSettingsAsk
    ConnectionType.ConnectionPrimary none none (Or.inl ⟨by decide, rfl⟩)

/-- Claim C6, counterexample: `openServer` is not free of mutations of the
caller's settings object: when the SSH password prompt is shown and
accepted, the obtained password is stored into the original settings
(`ssh->setAskedPassword`), so the settings after the call differ from the
settings passed in. -/
theorem claim_c6_counterexample :
    (openServer initialApp sampleSettingsAsk
        ConnectionType.ConnectionPrimary (some "pw") none).settingsAfter ≠
      sampleSettingsAsk := by
  decide

/-- Claim C6, amended: the orchestration layer hands only clones to
asynchronous paths and applies the SSH host/port rewrite only to the clone
stored inside the new server, never to the caller's settings; the only
mutations `openServer` makes to the caller's settings are storing the
accepted prompt secrets (`askedPassword`, `pemPassPhrase`), and the
`openShell` primitive and `continueOpenServer` leave the passed settings
entirely unchanged. -/
theorem claim_c6_settings_frame (s : AppState) (c : ConnectionSettings)
    (t : ConnectionType) (p q : Option String) (origin : Option Nat)
    (info : ScriptInfo) (hnd lp : Nat) :
    ((openServer s c t p q).settingsAfter =
        { c with
            sshSettings :=
              { c.sshSettings with
                  askedPassword :=
                    (openServer s c t p q).settingsAfter.sshSettings.askedPassword }
            sslSettings :=
              { c.sslSettings with
                  pemPassPhrase :=
                    (openServer s c t p q).settingsAfter.sslSettings.pemPassPhrase } })
    ∧ (openShell s origin c info).settingsAfter = c
    ∧ (continueOpenServer hnd c t lp).settingsAfter = c
    ∧ (continueOpenServer hnd c t lp).server.settings =
        (if tunnelRewriteCond c t then
          { c with serverHost := "127.0.0.1", serverPort := lp }
        else c) := by
  refine ⟨?_, ?_, rfl, rfl⟩
  · rcases openServer_cases s c t p q with ⟨opw, oph, heq⟩ | ⟨opw, oph, heq⟩
    · rw [heq]
      rfl
    · rw [heq, openServerFinish_settingsAfter]
      rfl
  · cases origin <;> rfl

/-- Claim C10, counterexample: aborting the `openShell` primitive on a null
originating server does mutate internal orchestrator state: the handle
counter was already incremented by the secondary open that ran before the
null check. -/
theorem claim_c10_counterexample :
    (openShell initialApp none sampleSettingsPlain
        sampleScriptInfo).state.lastServerHandle = 1
    ∧ initialApp.lastServerHandle = 0 :=
  ⟨rfl, rfl⟩

/- ----------------------------------------------------------------- -/
/- Claim C4: handle monotonicity.                                     -/
/- ----------------------------------------------------------------- -/

theorem assignedHandles_gt (calls : List OpenCall) :
    ∀ (s : AppState), ∀ h ∈ assignedHandles s calls,
      s.lastServerHandle < h := by
  induction calls with
  | nil =>
    intro s h hm
    simp [assignedHandles, runOpens] at hm
  | cons call rest ih =>
    intro s h hm
    rcases openServer_cases s call.conn call.type call.sshPromptInput
        call.sslPromptInput with ⟨opw, oph, heq⟩ | ⟨opw, oph, heq⟩
    · simp only [assignedHandles, runOpens, heq, List.filterMap_cons, id_eq]
        at hm
      exact ih s h hm
    · simp only [assignedHandles, runOpens, heq, openServerFinish_assigned,
        openServerFinish_state, List.filterMap_cons, id_eq,
        List.mem_cons] at hm
      rcases hm with rfl | hm
      · omega
      · have := ih _ h hm
        simp only [openServerFinish_state] at this
        omega

/-- Claim C4: along any sequence of `openServer` calls the assigned handles
are strictly increasing (hence never repeated, whatever each call's
outcome), and within one call the handle allocation is the first action,
before any event is emitted. -/
theorem claim_c4_handle_monotone (s : AppState) (calls : List OpenCall) :
    (assignedHandles s calls).Pairwise (· < ·)
    ∧ ∀ (call : OpenCall) (hnd : Nat),
        (openServer s call.conn call.type call.sshPromptInput
          call.sslPromptInput).assigned = some hnd →
        (openServer s call.conn call.type call.sshPromptInput
          call.sslPromptInput).actions.head? =
          some (Action.allocHandle hnd) := by
  constructor
  · induction calls generalizing s with
    | nil => simp [assignedHandles, runOpens]
    | cons call rest ih =>
      rcases openServer_cases s call.conn call.type call.sshPromptInput
          call.sslPromptInput with ⟨opw, oph, heq⟩ | ⟨opw, oph, heq⟩
      · simp only [assignedHandles, runOpens, heq, List.filterMap_cons,
          id_eq]
        exact ih s
      · simp only [assignedHandles, runOpens, heq, openServerFinish_assigned,
          openServerFinish_state, List.filterMap_cons, id_eq]
        refine List.Pairwise.cons ?_ (ih _)
        intro b hb
        have := assignedHandles_gt rest _ b hb
        simp only [openServerFinish_state] at this
        omega
  · intro call hnd ha
    rcases openServer_cases s call.conn call.type call.sshPromptInput
        call.sslPromptInput with ⟨opw, oph, heq⟩ | ⟨opw, oph, heq⟩
    · rw [heq] at ha
      exact absurd ha (by simp)
    · rw [heq] at ha
      rw [openServerFinish_assigned] at ha
      obtain rfl := Option.some.inj ha
      rw [heq, openServerFinish_actions, openServerInternal_actions_head]

/-- Claim C4, witness: on the sample trace (a synchronous open, a declined
open, a tunnel open) the assigned handles are strictly increasing, and the
first call's first action is the allocation of handle 1. -/
theorem claim_c4_witness :
    (assignedHandles initialApp sampleCalls).Pairwise (· < ·)
    ∧ (openServer initialApp sampleSettingsPlain
        ConnectionType.ConnectionPrimary none none).actions.head? =
        some (Action.allocHandle 1) :=
  ⟨(claim_c4_handle_monotone initialApp sampleCalls).1,
   (claim_c4_handle_monotone initialApp sampleCalls).2
     ⟨sampleSettingsPlain, ConnectionType.ConnectionPrimary, none, none⟩ 1
     rfl⟩

/-- Claim C10, amended: when the originating server reference is null, the
`openShell` primitive registers no shell and no server, publishes no bus
event, and dispatches no request; the handle counter, however, has already
been incremented by the secondary open performed before the null check
(and that open's worker/log actions have already run). -/
theorem claim_c10_null_guard (s : AppState) (c : ConnectionSettings)
    (info : ScriptInfo) :
    (openShell s none c info).state.servers = s.servers
    ∧ (openShell s none c info).state.shells = s.shells
    ∧ publishedEvents (openShell s none c info).actions = []
    ∧ (openShell s none c info).request = none
    ∧ (openShell s none c info).state.lastServerHandle =
        s.lastServerHandle + 1 :=
  ⟨rfl, rfl, rfl, rfl, rfl⟩

/- ----------------------------------------------------------------- -/
/- Handler and world-step lemmas.                                     -/
/- ----------------------------------------------------------------- -/

theorem handleListen_state (s : AppState) (e : ListenSshConnectionResponse) :
    (handleListen s e).state = s := by
  cases he : e.error <;> simp [handleListen, he]

theorem handleEstablish_error_state (s : AppState)
    (e : EstablishSshConnectionResponse) (msg : String)
    (he : e.error = some msg) : (handleEstablish s e).state = s := by
  simp [handleEstablish, he]

theorem handleEstablish_error_actions (s : AppState)
    (e : EstablishSshConnectionResponse) (msg : String)
    (he : e.error = some msg) :
    (handleEstablish s e).actions =
      [Action.publish (BusEvent.connectionFailedEvent e.serverHandle
        e.connectionType msg ConnectionFailedReason.sshConnection)] := by
  simp [handleEstablish, he]

theorem handleEstablish_success_state (s : AppState)
    (e : EstablishSshConnectionResponse) (he : e.error = none) :
    (handleEstablish s e).state =
      { s with servers := s.servers ++
          [some (continueOpenServer e.serverHandle e.settings
            e.connectionType e.localport).server] } := by
  simp [handleEstablish, he]

theorem serverHandlesL_append (l : List (Option MongoServer))
    (x : Option MongoServer) :
    serverHandlesL (l ++ [x]) =
      serverHandlesL l ++ (x.map MongoServer.handle).toList := by
  cases x <;> simp [serverHandlesL]

theorem serverHandlesL_filter (l : List (Option MongoServer))
    (pred : Option MongoServer → Bool) :
    List.Sublist (serverHandlesL (l.filter pred)) (serverHandlesL l) :=
  (List.filter_sublist l).filterMap _

theorem openShell_cases (s : AppState) (origin : Option Nat)
    (c : ConnectionSettings) (info : ScriptInfo) :
    ((openShell s origin c info).state.servers = s.servers
        ∧ (openShell s origin c info).state.lastServerHandle =
            s.lastServerHandle + 1
        ∧ (openShell s origin c info).request = none)
      ∨ (∃ srv, (openShell s origin c info).state.servers =
            s.servers ++ [some srv]
          ∧ srv.handle = s.lastServerHandle + 1
          ∧ (openShell s origin c info).state.lastServerHandle =
              s.lastServerHandle + 1
          ∧ (openShell s origin c info).request = none) := by
  cases origin with
  | none => exact Or.inl ⟨rfl, rfl, rfl⟩
  | some o => exact Or.inr ⟨_, rfl, rfl, rfl, rfl⟩

theorem handle_not_in_rest {l1 l2 : List PendingReq} {p : PendingReq}
    (hn : ((l1 ++ p :: l2).map PendingReq.handle).Nodup) :
    p.handle ∉ (l1 ++ l2).map PendingReq.handle := by
  rw [List.map_append, List.map_cons] at hn
  rw [List.map_append]
  exact (List.nodup_cons.mp (List.nodup_middle.mp hn)).1

theorem nodup_rest {l1 l2 : List PendingReq} {p : PendingReq}
    (hn : ((l1 ++ p :: l2).map PendingReq.handle).Nodup) :
    ((l1 ++ l2).map PendingReq.handle).Nodup := by
  rw [List.map_append, List.map_cons] at hn
  rw [List.map_append]
  exact (List.nodup_cons.mp (List.nodup_middle.mp hn)).2

theorem mem_handle_of_split {l1 l2 : List PendingReq} {p : PendingReq}
    {w : World} (hsplit : w.pendingEstablish = l1 ++ p :: l2) :
    p.handle ∈ pendingHandles w := by
  rw [pendingHandles, hsplit]
  simp

/- ----------------------------------------------------------------- -/
/- Preservation of the world invariant.                               -/
/- ----------------------------------------------------------------- -/

theorem worldInv_bump (w : World) (hw : WorldInv w) (sh : List MongoShell)
    (pl : List (Nat × ConnectionType)) :
    WorldInv
      { app := { lastServerHandle := w.app.lastServerHandle + 1
                 servers := w.app.servers, shells := sh }
        pendingEstablish := w.pendingEstablish
        pendingListen := pl } := by
  obtain ⟨hsn, hpn, hsb, hpb⟩ := hw
  refine ⟨hsn, hpn, ?_, ?_⟩
  · intro h hm
    exact Nat.le_succ_of_le (hsb h hm)
  · intro h hm
    exact ⟨Nat.le_succ_of_le (hpb h hm).1, (hpb h hm).2⟩

theorem worldInv_syncPush (w : World) (hw : WorldInv w) (srv : MongoServer)
    (hh : srv.handle = w.app.lastServerHandle + 1) (sh : List MongoShell)
    (pl : List (Nat × ConnectionType)) :
    WorldInv
      { app := { lastServerHandle := w.app.lastServerHandle + 1
                 servers := w.app.servers ++ [some srv], shells := sh }
        pendingEstablish := w.pendingEstablish
        pendingListen := pl } := by
  obtain ⟨hsn, hpn, hsb, hpb⟩ := hw
  have hsrvh : serverHandlesL (w.app.servers ++ [some srv]) =
      serverHandlesL w.app.servers ++ [srv.handle] := by
    rw [serverHandlesL_append]
    rfl
  refine ⟨?_, hpn, ?_, ?_⟩
  · show (serverHandlesL (w.app.servers ++ [some srv])).Nodup
    rw [hsrvh, List.nodup_append]
    refine ⟨hsn, List.nodup_singleton _, ?_⟩
    intro a ha
    simp only [List.mem_singleton]
    intro hab
    have := hsb a ha
    omega
  · intro h hm
    show h ≤ w.app.lastServerHandle + 1
    have hm' : h ∈ serverHandlesL w.app.servers ++ [srv.handle] := by
      rw [← hsrvh]
      exact hm
    rcases List.mem_append.mp hm' with h1 | h1
    · exact Nat.le_succ_of_le (hsb h h1)
    · simp only [List.mem_singleton] at h1
      omega
  · intro h hm
    refine ⟨Nat.le_succ_of_le (hpb h hm).1, ?_⟩
    show h ∉ serverHandlesL (w.app.servers ++ [some srv])
    rw [hsrvh]
    intro hcon
    rcases List.mem_append.mp hcon with h1 | h1
    · exact (hpb h hm).2 h1
    · simp only [List.mem_singleton] at h1
      have := (hpb h hm).1
      omega

theorem worldInv_tunnelPush (w : World) (hw : WorldInv w) (req : PendingReq)
    (hh : req.handle = w.app.lastServerHandle + 1) (sh : List MongoShell)
    (pl : List (Nat × ConnectionType)) :
    WorldInv
      { app := { lastServerHandle := w.app.lastServerHandle + 1
                 servers := w.app.servers ++ [none], shells := sh }
        pendingEstablish := w.pendingEstablish ++ [req]
        pendingListen := pl } := by
  obtain ⟨hsn, hpn, hsb, hpb⟩ := hw
  have hflat : serverHandlesL (w.app.servers ++ [none]) =
      serverHandlesL w.app.servers := by
    rw [serverHandlesL_append]
    simp
  refine ⟨?_, ?_, ?_, ?_⟩
  · show (serverHandlesL (w.app.servers ++ [none])).Nodup
    rw [hflat]
    exact hsn
  · show ((w.pendingEstablish ++ [req]).map PendingReq.handle).Nodup
    rw [List.map_append, List.nodup_append]
    refine ⟨hpn, by simp, ?_⟩
    intro a ha
    simp only [List.map_cons, List.map_nil, List.mem_singleton]
    intro hab
    have := (hpb a ha).1
    omega
  · intro h hm
    show h ≤ w.app.lastServerHandle + 1
    have hm' : h ∈ serverHandlesL w.app.servers := by
      rw [← hflat]
      exact hm
    exact Nat.le_succ_of_le (hsb h hm')
  · intro h hm
    have hm' : h ∈ pendingHandles w ∨ h = req.handle := by
      have hm2 : h ∈ (w.pendingEstablish ++ [req]).map PendingReq.handle :=
        hm

      rw [List.map_append, List.mem_append] at hm2
      rcases hm2 with h1 | h1
      · exact Or.inl h1
      · simp only [List.map_cons, List.map_nil, List.mem_singleton] at h1
        exact Or.inr h1
    rcases hm' with h1 | h1
    · refine ⟨Nat.le_succ_of_le (hpb h h1).1, ?_⟩
      show h ∉ serverHandlesL (w.app.servers ++ [none])
      rw [hflat]
      exact (hpb h h1).2
    · subst h1
      refine ⟨show req.handle ≤ w.app.lastServerHandle + 1 by omega, ?_⟩
      show req.handle ∉ serverHandlesL (w.app.servers ++ [none])
      rw [hflat]
      intro hcon
      have := hsb _ hcon
      omega

theorem worldInv_filterServers (w : World) (hw : WorldInv w)
    (pred : Option MongoServer → Bool) (sh : List MongoShell) :
    WorldInv
      { app := { lastServerHandle := w.app.lastServerHandle
                 servers := w.app.servers.filter pred, shells := sh }
        pendingEstablish := w.pendingEstablish
        pendingListen := w.pendingListen } := by
  obtain ⟨hsn, hpn, hsb, hpb⟩ := hw
  have hsub := serverHandlesL_filter w.app.servers pred
  exact ⟨hsub.nodup hsn, hpn, fun h hm => hsb h (hsub.subset hm),
    fun h hm => ⟨(hpb h hm).1, fun hc => (hpb h hm).2 (hsub.subset hc)⟩⟩

theorem worldInv_stepOpenServer (w : World) (c : ConnectionSettings)
    (t : ConnectionType) (p q : Option String) (hw : WorldInv w) :
    WorldInv (stepOpenServer w c t p q) := by
  rcases openServer_cases w.app c t p q with ⟨opw, oph, heq⟩ |
    ⟨opw, oph, heq⟩
  · have hw' : stepOpenServer w c t p q = w := by
      simp only [stepOpenServer]
      rw [heq]
      simp
    rw [hw']
    exact hw
  · rcases openServerInternal_cases w.app (credUpdate c opw oph) t with
      ⟨hreq, srv, hsrv, hh⟩ | ⟨hsrv, hreq⟩
    · have hw' : stepOpenServer w c t p q =
          { app := { lastServerHandle := w.app.lastServerHandle + 1
                     servers := w.app.servers ++ [some srv]
                     shells := w.app.shells }
            pendingEstablish := w.pendingEstablish
            pendingListen := w.pendingListen } := by
        simp only [stepOpenServer]
        rw [heq, openServerFinish_state, openServerFinish_request, hreq,
          hsrv]
        simp
      rw [hw']
      exact worldInv_syncPush w hw srv hh _ _
    · have hw' : stepOpenServer w c t p q =
          { app := { lastServerHandle := w.app.lastServerHandle + 1
                     servers := w.app.servers ++ [none]
                     shells := w.app.shells }
            pendingEstablish := w.pendingEstablish ++
              [⟨w.app.lastServerHandle + 1, credUpdate c opw oph, t⟩]
            pendingListen := w.pendingListen } := by
        simp only [stepOpenServer]
        rw [heq, openServerFinish_state, openServerFinish_request, hreq,
          hsrv]
        simp
      rw [hw']
      exact worldInv_tunnelPush w hw _ rfl _ _

theorem worldInv_stepOpenShell (w : World) (origin : Option Nat)
    (c : ConnectionSettings) (info : ScriptInfo) (hw : WorldInv w) :
    WorldInv (stepOpenShell w origin c info) := by
  rcases openShell_cases w.app origin c info with ⟨hs, hc, hr⟩ |
    ⟨srv, hs, hh, hc, hr⟩
  · have hw' : stepOpenShell w origin c info =
        { app := { lastServerHandle := w.app.lastServerHandle + 1
                   servers := w.app.servers
                   shells := (openShell w.app origin c info).state.shells }
          pendingEstablish := w.pendingEstablish
          pendingListen := w.pendingListen } := by
      simp only [stepOpenShell]
      refine World.ext (AppState.ext hc hs rfl) ?_ ?_
      · rw [hr]
        simp
      · rfl
    rw [hw']
    exact worldInv_bump w hw _ _
  · have hw' : stepOpenShell w origin c info =
        { app := { lastServerHandle := w.app.lastServerHandle + 1
                   servers := w.app.servers ++ [some srv]
                   shells := (openShell w.app origin c info).state.shells }
          pendingEstablish := w.pendingEstablish
          pendingListen := w.pendingListen } := by
      simp only [stepOpenShell]
      refine World.ext (AppState.ext hc hs rfl) ?_ ?_
      · rw [hr]
        simp
      · rfl
    rw [hw']
    exact worldInv_syncPush w hw srv hh _ _

theorem worldInv_stepEstablish (w : World) (l1 : List PendingReq)
    (p : PendingReq) (l2 : List PendingReq) (res : EstablishOutcome)
    (hsplit : w.pendingEstablish = l1 ++ p :: l2) (hw : WorldInv w) :
    WorldInv (stepEstablish w l1 p l2 res) := by
  obtain ⟨hsn, hpn, hsb, hpb⟩ := hw
  have hpmem : p.handle ∈ pendingHandles w := mem_handle_of_split hsplit
  have hpnfull : ((l1 ++ p :: l2).map PendingReq.handle).Nodup := by
    rw [pendingHandles, hsplit] at hpn
    exact hpn
  have hpn' : ((l1 ++ l2).map PendingReq.handle).Nodup := nodup_rest hpnfull
  have hnotin : p.handle ∉ (l1 ++ l2).map PendingReq.handle :=
    handle_not_in_rest hpnfull
  have hmemw : ∀ h, h ∈ (l1 ++ l2).map PendingReq.handle →
      h ∈ pendingHandles w := by
    intro h hm
    rw [pendingHandles, hsplit]
    rw [List.map_append] at hm
    rw [List.map_append, List.map_cons]
    rcases List.mem_append.mp hm with h1 | h1
    · exact List.mem_append.mpr (Or.inl h1)
    · exact List.mem_append.mpr (Or.inr (List.mem_cons_of_mem _ h1))
  cases res with
  | failure msg =>
    exact ⟨hsn, hpn', fun h hm => hsb h hm,
      fun h hm => hpb h (hmemw h hm)⟩
  | success lp =>
    have hph : p.handle ∉ serverHandlesL w.app.servers :=
      (hpb p.handle hpmem).2
    have hpc : p.handle ≤ w.app.lastServerHandle := (hpb p.handle hpmem).1
    have hsrvh : serverHandlesL (w.app.servers ++
        [some (continueOpenServer p.handle p.settings p.type lp).server]) =
        serverHandlesL w.app.servers ++ [p.handle] := by
      rw [serverHandlesL_append]
      rfl
    refine ⟨?_, hpn', ?_, ?_⟩
    · show (serverHandlesL (w.app.servers ++
        [some (continueOpenServer p.handle p.settings p.type lp).server])).Nodup
      rw [hsrvh, List.nodup_append]
      refine ⟨hsn, List.nodup_singleton _, ?_⟩
      intro a ha
      simp only [List.mem_singleton]
      intro hab
      subst hab
      exact hph ha
    · intro h hm
      show h ≤ w.app.lastServerHandle
      have hm' : h ∈ serverHandlesL w.app.servers ++ [p.handle] := by
        rw [← hsrvh]
        exact hm
      rcases List.mem_append.mp hm' with h1 | h1
      · exact hsb h h1
      · simp only [List.mem_singleton] at h1
        omega
    · intro h hm
      refine ⟨(hpb h (hmemw h hm)).1, ?_⟩
      show h ∉ serverHandlesL (w.app.servers ++
        [some (continueOpenServer p.handle p.settings p.type lp).server])
      rw [hsrvh]
      intro hcon
      rcases List.mem_append.mp hcon with h1 | h1
      · exact (hpb h (hmemw h hm)).2 h1
      · simp only [List.mem_singleton] at h1
        subst h1
        exact hnotin hm

theorem worldInv_stepListen (w : World) (l1 : List (Nat × ConnectionType))
    (q : Nat × ConnectionType) (l2 : List (Nat × ConnectionType))
    (res : ListenOutcome) (hw : WorldInv w) :
    WorldInv (stepListen w l1 q l2 res) := by
  obtain ⟨hsn, hpn, hsb, hpb⟩ := hw
  cases res with
  | success => exact ⟨hsn, hpn, hsb, hpb⟩
  | failure msg => exact ⟨hsn, hpn, hsb, hpb⟩

theorem worldInv_stepCloseServer (w : World) (serverHandle : Nat)
    (hw : WorldInv w) : WorldInv (stepCloseServer w serverHandle) := by
  obtain ⟨hsn, hpn, hsb, hpb⟩ := hw
  have hsub := serverHandlesL_filter w.app.servers
    (fun o => match o with
      | some srv => srv.handle != serverHandle
      | none => true)
  exact ⟨hsub.nodup hsn, hpn, fun h hm => hsb h (hsub.subset hm),
    fun h hm => ⟨(hpb h hm).1, fun hc => (hpb h hm).2 (hsub.subset hc)⟩⟩

theorem worldInv_stepCloseShell (w : World) (shell : MongoShell)
    (hw : WorldInv w) : WorldInv (stepCloseShell w shell) := by
  by_cases hmem : shell ∈ w.app.shells
  · have hw' : stepCloseShell w shell =
        { app := { lastServerHandle := w.app.lastServerHandle
                   servers := w.app.servers.filter (fun o =>
                     match o with
                     | some srv => srv.handle != shell.server.handle
                     | none => true)
                   shells := (closeServer w.app
                     shell.server.handle).shells.erase shell }
          pendingEstablish := w.pendingEstablish
          pendingListen := w.pendingListen } := by
      simp only [stepCloseShell, closeShell]
      rw [if_pos hmem]
      rfl
    rw [hw']
    exact worldInv_filterServers w hw _ _
  · have hw' : stepCloseShell w shell = w := by
      simp only [stepCloseShell, closeShell]
      rw [if_neg hmem]
    rw [hw']
    exact hw

theorem worldInv_initial : WorldInv initialWorld :=
  ⟨List.nodup_nil, List.nodup_nil,
   fun h hm => absurd hm (List.not_mem_nil h),
   fun h hm => absurd hm (List.not_mem_nil h)⟩

theorem reachableFrom_worldInv {w0 w : World} (h0 : WorldInv w0)
    (hr : ReachableFrom w0 w) : WorldInv w := by
  induction hr with
  | refl => exact h0
  | stepOpen _ c t p q ih => exact worldInv_stepOpenServer _ c t p q ih
  | stepShell _ o c info ih => exact worldInv_stepOpenShell _ o c info ih
  | stepEst _ l1 p l2 res hsplit ih =>
    exact worldInv_stepEstablish _ l1 p l2 res hsplit ih
  | stepLis _ l1 q l2 res hsplit ih =>
    exact worldInv_stepListen _ l1 q l2 res ih
  | stepCloseSrv _ h' ih => exact worldInv_stepCloseServer _ h' ih
  | stepCloseSh _ sh ih => exact worldInv_stepCloseShell _ sh ih

/- ----------------------------------------------------------------- -/
/- Dead handles stay dead.                                            -/
/- ----------------------------------------------------------------- -/

theorem not_mem_push_some (h : Nat) (l : List (Option MongoServer))
    (srv : MongoServer) (hs : h ∉ serverHandlesL l) (hne : h ≠ srv.handle) :
    h ∉ serverHandlesL (l ++ [some srv]) := by
  rw [serverHandlesL_append]
  intro hcon
  rcases List.mem_append.mp hcon with h1 | h1
  · exact hs h1
  · simp only [Option.map_some', Option.toList_some,
      List.mem_singleton] at h1
    exact hne h1

theorem not_mem_push_none (h : Nat) (l : List (Option MongoServer))
    (hs : h ∉ serverHandlesL l) : h ∉ serverHandlesL (l ++ [none]) := by
  rw [serverHandlesL_append]
  simpa using hs

theorem mem_rest_handles {l1 l2 : List PendingReq} {w : World}
    {p : PendingReq} (hsplit : w.pendingEstablish = l1 ++ p :: l2) :
    ∀ h, h ∈ (l1 ++ l2).map PendingReq.handle → h ∈ pendingHandles w := by
  intro h hm
  rw [pendingHandles, hsplit, List.map_append, List.map_cons]
  rw [List.map_append] at hm
  rcases List.mem_append.mp hm with h1 | h1
  · exact List.mem_append.mpr (Or.inl h1)
  · exact List.mem_append.mpr (Or.inr (List.mem_cons_of_mem _ h1))

theorem stepOpenServer_shape (w : World) (c : ConnectionSettings)
    (t : ConnectionType) (p q : Option String) :
    stepOpenServer w c t p q = w
    ∨ (∃ srv : MongoServer, srv.handle = w.app.lastServerHandle + 1 ∧
        stepOpenServer w c t p q =
          { app := { lastServerHandle := w.app.lastServerHandle + 1
                     servers := w.app.servers ++ [some srv]
                     shells := w.app.shells }
            pendingEstablish := w.pendingEstablish
            pendingListen := w.pendingListen })
    ∨ (∃ req : PendingReq, req.handle = w.app.lastServerHandle + 1 ∧
        stepOpenServer w c t p q =
          { app := { lastServerHandle := w.app.lastServerHandle + 1
                     servers := w.app.servers ++ [none]
                     shells := w.app.shells }
            pendingEstablish := w.pendingEstablish ++ [req]
            pendingListen := w.pendingListen }) := by
  rcases openServer_cases w.app c t p q with ⟨opw, oph, heq⟩ |
    ⟨opw, oph, heq⟩
  · refine Or.inl ?_
    simp only [stepOpenServer]
    rw [heq]
    simp
  · rcases openServerInternal_cases w.app (credUpdate c opw oph) t with
      ⟨hreq, srv, hsrv, hh⟩ | ⟨hsrv, hreq⟩
    · refine Or.inr (Or.inl ⟨srv, hh, ?_⟩)
      simp only [stepOpenServer]
      rw [heq, openServerFinish_state, openServerFinish_request, hreq, hsrv]
      simp
    · refine Or.inr (Or.inr
        ⟨⟨w.app.lastServerHandle + 1, credUpdate c opw oph, t⟩, rfl, ?_⟩)
      simp only [stepOpenServer]
      rw [heq, openServerFinish_state, openServerFinish_request, hreq, hsrv]
      simp

theorem stepOpenShell_shape (w : World) (origin : Option Nat)
    (c : ConnectionSettings) (info : ScriptInfo) :
    (∃ sh, stepOpenShell w origin c info =
        { app := { lastServerHandle := w.app.lastServerHandle + 1
                   servers := w.app.servers, shells := sh }
          pendingEstablish := w.pendingEstablish
          pendingListen := w.pendingListen })
    ∨ (∃ srv sh, srv.handle = w.app.lastServerHandle + 1 ∧
        stepOpenShell w origin c info =
          { app := { lastServerHandle := w.app.lastServerHandle + 1
                     servers := w.app.servers ++ [some srv], shells := sh }
            pendingEstablish := w.pendingEstablish
            pendingListen := w.pendingListen }) := by
  rcases openShell_cases w.app origin c info with ⟨hs, hc, hr⟩ |
    ⟨srv, hs, hh, hc, hr⟩
  · refine Or.inl ⟨(openShell w.app origin c info).state.shells, ?_⟩
    simp only [stepOpenShell]
    refine World.ext (AppState.ext hc hs rfl) ?_ ?_
    · rw [hr]
      simp
    · rfl
  · refine Or.inr ⟨srv, (openShell w.app origin c info).state.shells, hh, ?_⟩
    simp only [stepOpenShell]
    refine World.ext (AppState.ext hc hs rfl) ?_ ?_
    · rw [hr]
      simp
    · rfl

theorem stepCloseShell_shape (w : World) (shell : MongoShell) :
    stepCloseShell w shell = w
    ∨ stepCloseShell w shell =
        { app := { lastServerHandle := w.app.lastServerHandle
                   servers := w.app.servers.filter (fun o =>
                     match o with
                     | some srv => srv.handle != shell.server.handle
                     | none => true)
                   shells := (closeServer w.app
                     shell.server.handle).shells.erase shell }
          pendingEstablish := w.pendingEstablish
          pendingListen := w.pendingListen } := by
  by_cases hmem : shell ∈ w.app.shells
  · refine Or.inr ?_
    simp only [stepCloseShell, closeShell]
    rw [if_pos hmem]
    rfl
  · refine Or.inl ?_
    simp only [stepCloseShell, closeShell]
    rw [if_neg hmem]

theorem deadHandle_stepOpenServer {h : Nat} {w : World}
    (c : ConnectionSettings) (t : ConnectionType) (p q : Option String)
    (hd : DeadHandle h w) : DeadHandle h (stepOpenServer w c t p q) := by
  obtain ⟨hc, hp, hs⟩ := hd
  rcases stepOpenServer_shape w c t p q with heq | ⟨srv, hh, heq⟩ |
    ⟨req, hh, heq⟩
  · rw [heq]
    exact ⟨hc, hp, hs⟩
  · rw [heq]
    exact ⟨Nat.le_succ_of_le hc, hp,
      not_mem_push_some h _ srv hs (by omega)⟩
  · rw [heq]
    refine ⟨Nat.le_succ_of_le hc, ?_, not_mem_push_none h _ hs⟩
    show h ∉ (w.pendingEstablish ++ [req]).map PendingReq.handle
    rw [List.map_append]
    intro hcon
    rcases List.mem_append.mp hcon with h1 | h1
    · exact hp h1
    · simp only [List.map_cons, List.map_nil, List.mem_singleton] at h1
      omega

theorem deadHandle_stepOpenShell {h : Nat} {w : World} (origin : Option Nat)
    (c : ConnectionSettings) (info : ScriptInfo) (hd : DeadHandle h w) :
    DeadHandle h (stepOpenShell w origin c info) := by
  obtain ⟨hc, hp, hs⟩ := hd
  rcases stepOpenShell_shape w origin c info with ⟨sh, heq⟩ |
    ⟨srv, sh, hh, heq⟩
  · rw [heq]
    exact ⟨Nat.le_succ_of_le hc, hp, hs⟩
  · rw [heq]
    exact ⟨Nat.le_succ_of_le hc, hp,
      not_mem_push_some h _ srv hs (by omega)⟩

theorem deadHandle_stepEstablish {h : Nat} {w : World}
    (l1 : List PendingReq) (p : PendingReq) (l2 : List PendingReq)
    (res : EstablishOutcome)
    (hsplit : w.pendingEstablish = l1 ++ p :: l2) (hd : DeadHandle h w) :
    DeadHandle h (stepEstablish w l1 p l2 res) := by
  obtain ⟨hc, hp, hs⟩ := hd
  have hpnot : h ∉ (l1 ++ l2).map PendingReq.handle := fun hcon =>
    hp (mem_rest_handles hsplit h hcon)
  have hne : h ≠ p.handle := fun he =>
    hp (he ▸ mem_handle_of_split hsplit)
  cases res with
  | failure msg => exact ⟨hc, hpnot, hs⟩
  | success lp => exact ⟨hc, hpnot, not_mem_push_some h _ _ hs hne⟩

theorem deadHandle_stepListen {h : Nat} {w : World}
    (l1 : List (Nat × ConnectionType)) (q : Nat × ConnectionType)
    (l2 : List (Nat × ConnectionType)) (res : ListenOutcome)
    (hd : DeadHandle h w) : DeadHandle h (stepListen w l1 q l2 res) := by
  obtain ⟨hc, hp, hs⟩ := hd
  cases res with
  | success => exact ⟨hc, hp, hs⟩
  | failure msg => exact ⟨hc, hp, hs⟩

theorem deadHandle_stepCloseServer {h : Nat} {w : World}
    (serverHandle : Nat) (hd : DeadHandle h w) :
    DeadHandle h (stepCloseServer w serverHandle) := by
  obtain ⟨hc, hp, hs⟩ := hd
  have hsub := serverHandlesL_filter w.app.servers
    (fun o => match o with
      | some srv => srv.handle != serverHandle
      | none => true)
  exact ⟨hc, hp, fun hcon => hs (hsub.subset hcon)⟩

theorem deadHandle_stepCloseShell {h : Nat} {w : World}
    (shell : MongoShell) (hd : DeadHandle h w) :
    DeadHandle h (stepCloseShell w shell) := by
  obtain ⟨hc, hp, hs⟩ := hd
  rcases stepCloseShell_shape w shell with heq | heq
  · rw [heq]
    exact ⟨hc, hp, hs⟩
  · rw [heq]
    have hsub := serverHandlesL_filter w.app.servers
      (fun o => match o with
        | some srv => srv.handle != shell.server.handle
        | none => true)
    exact ⟨hc, hp, fun hcon => hs (hsub.subset hcon)⟩

theorem deadHandle_preserved {h : Nat} {w w' : World}
    (hd : DeadHandle h w) (hr : ReachableFrom w w') : DeadHandle h w' := by
  induction hr with
  | refl => exact hd
  | stepOpen _ c t p q ih => exact deadHandle_stepOpenServer c t p q ih
  | stepShell _ o c info ih => exact deadHandle_stepOpenShell o c info ih
  | stepEst _ l1 p l2 res hsplit ih =>
    exact deadHandle_stepEstablish l1 p l2 res hsplit ih
  | stepLis _ l1 q l2 res hsplit ih =>
    exact deadHandle_stepListen l1 q l2 res ih
  | stepCloseSrv _ h' ih => exact deadHandle_stepCloseServer h' ih
  | stepCloseSh _ sh ih => exact deadHandle_stepCloseShell sh ih

/- ----------------------------------------------------------------- -/
/- Claims C2, C8, C9.                                                 -/
/- ----------------------------------------------------------------- -/

/-- Claim C2, counterexample: the establish handler performs no matching of
the event's handle against pending opens — delivering a successful
`EstablishSshConnectionResponse` for handle 5 to the fresh orchestrator
(which has no pending open at all) registers a server with handle 5, so an
event whose handle has no pending open is not effect-free on the server
collection. -/
theorem claim_c2_counterexample :
    initialWorld.pendingEstablish = []
    ∧ serverHandles initialWorld.app = []
    ∧ serverHandles (handleEstablish initialWorld.app
        ⟨5, sampleSettingsTunnel, ConnectionType.ConnectionPrimary, 900,
          none⟩).state = [5] :=
  ⟨rfl, rfl, rfl⟩

/-- Claim C2, amended: in every state reachable under the event-bus
contract (each delivered response consumes exactly one matching outstanding
request), the server collection never contains two non-null entries with
the same handle.  Establish-error responses and listen responses leave the
collection unchanged, but the handlers do no handle matching, so a
success establish response always registers a server for its handle (see
the counterexample for an unmatched one). -/
theorem claim_c2_unique_handles (w : World) (hw : Reachable w) :
    (serverHandles w.app).Nodup :=
  (reachableFrom_worldInv worldInv_initial hw).1

/-- Claim C2, witness: the world reached by a tunnel `openServer` followed
by its successful establish response has exactly the server with handle 1,
and its handles are duplicate-free by the amended theorem. -/
theorem claim_c2_witness :
    serverHandles (stepEstablish
        (stepOpenServer initialWorld sampleSettingsTunnel
          ConnectionType.ConnectionPrimary none none)
        [] ⟨1, sampleSettingsTunnel, ConnectionType.ConnectionPrimary⟩ []
        (EstablishOutcome.success 2000)).app = [1]
    ∧ (serverHandles (stepEstablish
        (stepOpenServer initialWorld sampleSettingsTunnel
          ConnectionType.ConnectionPrimary none none)
        [] ⟨1, sampleSettingsTunnel, ConnectionType.ConnectionPrimary⟩ []
        (EstablishOutcome.success 2000)).app).Nodup :=
  ⟨rfl,
   claim_c2_unique_handles _
     (ReachableFrom.stepEst
       (ReachableFrom.stepOpen ReachableFrom.refl sampleSettingsTunnel
         ConnectionType.ConnectionPrimary none none)
       [] ⟨1, sampleSettingsTunnel, ConnectionType.ConnectionPrimary⟩ []
       (EstablishOutcome.success 2000) rfl)⟩

/-- Claim C8: processing an establish-error response for an outstanding
tunnel-backed open with handle `p.handle` publishes exactly one
`ConnectionFailed(SshConnection)` event carrying the handle, type and
message; no server with that handle exists immediately afterwards, and none
ever appears in any later reachable state (the handle is abandoned and
never reused). -/
theorem claim_c8_establish_error (w : World) (hw : Reachable w)
    (l1 : List PendingReq) (p : PendingReq) (l2 : List PendingReq)
    (hsplit : w.pendingEstablish = l1 ++ p :: l2) (msg : String) :
    (handleEstablish w.app
        (eventOfPending p (EstablishOutcome.failure msg))).actions =
      [Action.publish (BusEvent.connectionFailedEvent p.handle p.type msg
        ConnectionFailedReason.sshConnection)]
    ∧ p.handle ∉ serverHandles
        (stepEstablish w l1 p l2 (EstablishOutcome.failure msg)).app
    ∧ ∀ w', ReachableFrom
        (stepEstablish w l1 p l2 (EstablishOutcome.failure msg)) w' →
        p.handle ∉ serverHandles w'.app := by
  obtain ⟨hsn, hpn, hsb, hpb⟩ := reachableFrom_worldInv worldInv_initial hw
  have hpmem := mem_handle_of_split hsplit
  have hpnfull : ((l1 ++ p :: l2).map PendingReq.handle).Nodup := by
    rw [pendingHandles, hsplit] at hpn
    exact hpn
  have hdead : DeadHandle p.handle
      (stepEstablish w l1 p l2 (EstablishOutcome.failure msg)) :=
    ⟨(hpb _ hpmem).1, handle_not_in_rest hpnfull, (hpb _ hpmem).2⟩
  exact ⟨rfl, hdead.2.2, fun w' hr' => (deadHandle_preserved hdead hr').2.2⟩

/-- Claim C8, witness: after opening a tunnel connection (handle 1) from
the fresh orchestrator and failing its establish request, exactly the
`ConnectionFailed(SshConnection)` event is emitted and no server with
handle 1 exists. -/
theorem claim_c8_witness :
    (handleEstablish
        (stepOpenServer initialWorld sampleSettingsTunnel
          ConnectionType.ConnectionPrimary none none).app
        (eventOfPending
          ⟨1, sampleSettingsTunnel, ConnectionType.ConnectionPrimary⟩
          (EstablishOutcome.failure "no route"))).actions =
      [Action.publish (BusEvent.connectionFailedEvent 1
        ConnectionType.ConnectionPrimary "no route"
        ConnectionFailedReason.sshConnection)]
    ∧ 1 ∉ serverHandles (stepEstablish
        (stepOpenServer initialWorld sampleSettingsTunnel
          ConnectionType.ConnectionPrimary none none)
        [] ⟨1, sampleSettingsTunnel, ConnectionType.ConnectionPrimary⟩ []
        (EstablishOutcome.failure "no route")).app :=
  have hthm := claim_c8_establish_error
    (stepOpenServer initialWorld sampleSettingsTunnel
      ConnectionType.ConnectionPrimary none none)
    (ReachableFrom.stepOpen ReachableFrom.refl sampleSettingsTunnel
      ConnectionType.ConnectionPrimary none none)
    [] ⟨1, sampleSettingsTunnel, ConnectionType.ConnectionPrimary⟩ [] rfl
    "no route"
  ⟨hthm.1, hthm.2.1⟩

/-- Claim C9: a listen response never changes the orchestrator state, so a
server registered by an earlier establish success is never undone: every
registered handle stays registered; on listen error exactly one
`ConnectionFailed(SshChannel)` event is published, and on listen success
only the "SSH tunnel closed." log intent is emitted (at error severity, as
in the source) — no connection logic is re-triggered. -/
theorem claim_c9_listen_preserves (s : AppState)
    (e : ListenSshConnectionResponse) :
    (handleListen s e).state = s
    ∧ (∀ h, h ∈ serverHandles s →
        h ∈ serverHandles (handleListen s e).state)
    ∧ (∀ msg, e.error = some msg →
        (handleListen s e).actions =
          [Action.publish (BusEvent.connectionFailedEvent e.serverHandle
            e.connectionType msg ConnectionFailedReason.sshChannel)])
    ∧ (e.error = none →
        (handleListen s e).actions =
          [Action.logMsg "SSH tunnel closed." LogSeverity.error]) := by
  refine ⟨handleListen_state s e, ?_, ?_, ?_⟩
  · intro h hm
    rw [handleListen_state]
    exact hm
  · intro msg hmsg
    simp [handleListen, hmsg]
  · intro hnone
    simp [handleListen, hnone]

/-- Claim C9, witness: the handshake-ordering scenario — establish success
for handle 7 followed by a listen error for handle 7 — leaves the one
registered server with handle 7 untouched and publishes exactly one
`ConnectionFailed(SshChannel)` event. -/
theorem claim_c9_witness :
    (handleListen appAfterSuccess7 sampleListenError7).state =
      appAfterSuccess7
    ∧ serverHandles appAfterSuccess7 = [7]
    ∧ (handleListen appAfterSuccess7 sampleListenError7).actions =
        [Action.publish (BusEvent.connectionFailedEvent 7
          ConnectionType.ConnectionPrimary "channel error"
          ConnectionFailedReason.sshChannel)] :=
  ⟨(claim_c9_listen_preserves appAfterSuccess7 sampleListenError7).1, rfl,
   (claim_c9_listen_preserves appAfterSuccess7 sampleListenError7).2.2.1
     "channel error" rfl⟩

end Robomongo
